import Mathlib

/-!
Formal model of the rear-end collision detection pipeline of `sql2collisions.py`
(repository ITSC_2021), together with proofs of the behavioural properties of its
components: the OMNeT++/SUMO coordinate transformer, the lane lookup, the
per-snapshot proximity query, the `is_following` predicate, the snapshot builder
and the orchestration loop of `main`.

Coordinates are embedded as exact rationals.  The Python code compares Euclidean
distances computed with floating-point square roots; since all compared distances
are non-negative, `d(a,b) < d(c,d)` holds iff `d(a,b)^2 < d(c,d)^2`, so the
embedded code stores squared distances (`dist2`, `segDist2`, `lineDist2`) and the
bridging lemmas below relate them to `Real.sqrt`-based Euclidean distances.
-/

/-- A planar point (shapely `Point`), with exact rational coordinates. -/
structure Pt where
  x : ℚ
  y : ℚ
deriving DecidableEq

/-- Squared Euclidean distance between two points.  `p.distance(q)` in the
source is `Real.sqrt (dist2 p q)`. -/
def dist2 (p q : Pt) : ℚ := (p.x - q.x) * (p.x - q.x) + (p.y - q.y) * (p.y - q.y)

/-- `CoordTransformer.__init__` (sql2collisions.py:26-31): stores the top-left
and bottom-right corners and the margin. -/
structure CoordTransformer where
  topleft : Pt
  bottomright : Pt
  margin : ℚ
deriving DecidableEq

/-- The `_dimensions` field computed in `CoordTransformer.__init__`. -/
def CoordTransformer.dimensions (c : CoordTransformer) : Pt :=
  ⟨c.bottomright.x - c.topleft.x, c.bottomright.y - c.topleft.y⟩

/-- `CoordTransformer.omnet2traci` (sql2collisions.py:33-34): the map from the
simulation (OMNeT++) plane to the network (TraCI/SUMO) plane. -/
def CoordTransformer.omnet2traci (c : CoordTransformer) (p : Pt) : Pt :=
  ⟨p.x + c.topleft.x - c.margin, c.dimensions.y - (p.y - c.topleft.y) + c.margin⟩

/-- `CoordTransformer.traci2omnet` (sql2collisions.py:36-37): the map from the
network plane back to the simulation plane. -/
def CoordTransformer.traci2omnet (c : CoordTransformer) (p : Pt) : Pt :=
  ⟨p.x - c.topleft.x + c.margin, c.dimensions.y - (p.y - c.topleft.y) + c.margin⟩

/-- `is_following` (sql2collisions.py:106-143):
`(up.distance(vc) > up.distance(vp)) and (uc.distance(vc) <= up.distance(vp))`,
encoded with squared distances (equivalent because all distances are
non-negative; see `C2_is_following`). -/
def is_following (up uc vp vc : Pt) : Bool :=
  decide (dist2 up vp < dist2 up vc) && decide (dist2 uc vc ≤ dist2 up vp)

/-- `ProximityHelper` (sql2collisions.py:89-103): holds the indexed
`(thing_id, position)` pairs.  The callers in this program (`snapshot.end()`)
always supply pairwise-distinct ids, so the id-deduplicating dict wrapper of
`__init__` is the identity on the data. -/
structure ProximityHelper where
  data : List (ℕ × Pt)
deriving DecidableEq

/-- `ProximityHelper.find` (sql2collisions.py:97-103).  The source builds
`query_geom = pos.buffer(threshold)` and calls `STRtree.query(query_geom)`.
Shapely's `STRtree.query` matches on bounding-box extents only, and the
bounding box of `pos.buffer(threshold)` for `threshold > 0` is the closed
axis-aligned square `[pos.x - threshold, pos.x + threshold] x
[pos.y - threshold, pos.y + threshold]`; for `threshold <= 0` the buffer is an
empty polygon and the query returns nothing.  So the returned candidates are
exactly the indexed points inside that closed square. -/
def ProximityHelper.find (ph : ProximityHelper) (pos : Pt) (threshold : ℚ) :
    List (ℕ × Pt) :=
  if threshold ≤ 0 then []
  else
    ph.data.filter (fun r =>
      decide (pos.x - threshold ≤ r.2.x) && decide (r.2.x ≤ pos.x + threshold) &&
      decide (pos.y - threshold ≤ r.2.y) && decide (r.2.y ≤ pos.y + threshold))

/-- A row of the `collisions` output table (sql2collisions.py:233-241). -/
structure CollisionRec where
  leader_node_id : ℕ
  follower_node_id : ℕ
  seconds : ℚ
  lane_id : String
deriving DecidableEq

/-- Two collision rows agree on the primary key
`(leader_node_id, follower_node_id, seconds)` (sql2collisions.py:239). -/
def sameKey (a b : CollisionRec) : Bool :=
  decide (a.leader_node_id = b.leader_node_id) &&
  decide (a.follower_node_id = b.follower_node_id) &&
  decide (a.seconds = b.seconds)

/-- The primary key of `r` is already present in `store`. -/
abbrev keyMem (store : List CollisionRec) (r : CollisionRec) : Prop :=
  store.any (fun s => sameKey s r) = true

/-- `insert or ignore into collisions` (sql2collisions.py:243): the row is
appended unless a row with the same primary key already exists. -/
def insertOrIgnore (store : List CollisionRec) (r : CollisionRec) :
    List CollisionRec :=
  if store.any (fun s => sameKey s r) then store else store ++ [r]

/-- The sequence of `insert or ignore` statements executed by one detection run
(sql2collisions.py:300), applied to the output store. -/
def runInserts (store : List CollisionRec) (rs : List CollisionRec) :
    List CollisionRec :=
  rs.foldl insertOrIgnore store

/-- A concrete store and a second row sharing its primary key, used to
instantiate the idempotence theorem. -/
def storeEx : List CollisionRec := [⟨1, 2, 3, "L0"⟩]

/-- A detection output replayed twice in the idempotence instantiation. -/
def insertsEx : List CollisionRec := [⟨1, 2, 3, "L1"⟩, ⟨4, 5, 6, "L2"⟩]

/-- A row of the `results` telemetry table (vec2sql.py:28-52), restricted to
the columns read by `sql2collisions.py`.  Nullable columns are `Option`. -/
structure Row where
  node_id : ℕ
  run_id : ℕ
  seconds : ℚ
  controller : String
  mobility_posx : Option ℚ
  mobility_posy : Option ℚ
  appl_speed : Option ℚ
deriving DecidableEq

/-- The WHERE clause of the snapshot query (sql2collisions.py:154-162): same
run, same instant, non-null position and speed. -/
def sqlWhere (r : Row) (run : ℕ) (t : ℚ) : Bool :=
  decide (r.run_id = run) && decide (r.seconds = t) &&
  decide (r.mobility_posx ≠ none) && decide (r.mobility_posy ≠ none) &&
  decide (r.appl_speed ≠ none)

/-- The `Point(xpos, ypos)` built from a row (sql2collisions.py:167).  The
`getD` defaults are never used: the query filters out null positions. -/
def rowPos (r : Row) : Pt := ⟨r.mobility_posx.getD 0, r.mobility_posy.getD 0⟩

/-- Value of key `k` in a Python dict built by successive assignments from an
association list: the value of the last entry carrying key `k`. -/
def lastAssoc {α : Type} : List (ℕ × α) → ℕ → Option α
  | [], _ => none
  | kv :: rest, k =>
    match lastAssoc rest k with
    | some v => some v
    | none => if kv.1 = k then some kv.2 else none

/-- The `start_data` dict of `Snapshot.__init__` (sql2collisions.py:164-167):
node_id to (position, controller) at the start instant. -/
def start_data (rows : List Row) (run : ℕ) (start : ℚ) :
    List (ℕ × (Pt × String)) :=
  (rows.filter (fun r => sqlWhere r run start)).map
    (fun r => (r.node_id, (rowPos r, r.controller)))

/-- The `end_data` dict of `Snapshot.__init__` (sql2collisions.py:169-172):
node_id to (position, speed, controller) at the end instant. -/
def end_data (rows : List Row) (run : ℕ) (e : ℚ) :
    List (ℕ × (Pt × ℚ × String)) :=
  (rows.filter (fun r => sqlWhere r run e)).map
    (fun r => (r.node_id, (rowPos r, r.appl_speed.getD 0, r.controller)))

/-- The `Vehicle` namedtuple (sql2collisions.py:146). -/
structure Vehicle where
  prev_pos : Pt
  curr_pos : Pt
  speed : ℚ
  controller : String
deriving DecidableEq

/-- `Snapshot.get` after `Snapshot.__init__` (sql2collisions.py:149-184): a
vehicle id is present iff it occurs in both instants' dicts, and its state
combines the start-instant position with the end-instant position, speed and
controller. -/
def snapshotGet (rows : List Row) (run : ℕ) (start e : ℚ) (k : ℕ) :
    Option Vehicle :=
  match lastAssoc (start_data rows run start) k, lastAssoc (end_data rows run e) k with
  | some sd, some ed => some ⟨sd.1, ed.1, ed.2.1, ed.2.2⟩
  | _, _ => none

/-- SQLite evaluation of `seconds >= ?` when the bound parameter may be NULL:
a comparison with NULL is never satisfied. -/
def sqlGeParam (param : Option ℚ) (s : ℚ) : Bool :=
  match param with
  | none => false
  | some b => decide (b ≤ s)

/-- SQLite evaluation of `seconds <= ?` when the bound parameter may be NULL. -/
def sqlLeParam (param : Option ℚ) (s : ℚ) : Bool :=
  match param with
  | none => false
  | some b => decide (s ≤ b)

/-- Insertion into an ascending-sorted list. -/
def insertAsc (x : ℚ) : List ℚ → List ℚ
  | [] => [x]
  | y :: ys => if x ≤ y then x :: y :: ys else y :: insertAsc x ys

/-- Ascending insertion sort, modelling `order by seconds asc`. -/
def sortAsc : List ℚ → List ℚ
  | [] => []
  | x :: xs => insertAsc x (sortAsc xs)

/-- `select distinct seconds from results where seconds >= ? and seconds <= ?
order by seconds asc` (sql2collisions.py:253-258).  There is no run_id
condition: rows of every run contribute. -/
def sql_instants (rows : List Row) (startParam endParam : Option ℚ) : List ℚ :=
  sortAsc (((rows.map Row.seconds).dedup).filter
    (fun s => sqlGeParam startParam s && sqlLeParam endParam s))

/-- Minimum of a list of rationals, as an `Option`. -/
def minQ : List ℚ → Option ℚ
  | [] => none
  | x :: xs =>
    match minQ xs with
    | none => some x
    | some m => some (min x m)

/-- Maximum of a list of rationals, as an `Option`. -/
def maxQ : List ℚ → Option ℚ
  | [] => none
  | x :: xs =>
    match maxQ xs with
    | none => some x
    | some m => some (max x m)

/-- `select min(seconds) from results where run_id = ?` (sql2collisions.py:247). -/
def sqlMinSeconds (rows : List Row) (run : ℕ) : Option ℚ :=
  minQ ((rows.filter (fun r => decide (r.run_id = run))).map Row.seconds)

/-- `select max(seconds) from results where run_id = ?` (sql2collisions.py:251). -/
def sqlMaxSeconds (rows : List Row) (run : ℕ) : Option ℚ :=
  maxQ ((rows.filter (fun r => decide (r.run_id = run))).map Row.seconds)

/-- The `start_time` value after the defaulting of sql2collisions.py:245-247. -/
def startTimeDefaulted (rows : List Row) (run : ℕ) (arg : Option ℚ) : Option ℚ :=
  match arg with
  | some s => some s
  | none => sqlMinSeconds rows run

/-- The `end_time` value after the defaulting of sql2collisions.py:249-251. -/
def endTimeDefaulted (rows : List Row) (run : ℕ) (arg : Option ℚ) : Option ℚ :=
  match arg with
  | some s => some s
  | none => sqlMaxSeconds rows run

/-- The instant sequence iterated by `main` (sql2collisions.py:253-264) in the
default whole-second mode.  The instants query is executed with the raw CLI
parameters `args.start_time` / `args.end_time` (line 259), not with the
defaulted `start_time` / `end_time` computed at lines 245-251, and its result
is then filtered to whole seconds (line 262).  The requested run plays no
role in this query. -/
def mainInstants (rows : List Row) (_run : ℕ) (argStart argEnd : Option ℚ) :
    List ℚ :=
  (sql_instants rows argStart argEnd).filter (fun i => decide (i.den = 1))

/-- A store with one run sampled at seconds 1 and 2, used to exhibit the
defaulted-bounds behaviour. -/
def rowsTwo : List Row :=
  [⟨1, 0, 1, "c", some 0, some 0, some 0⟩,
   ⟨1, 0, 2, "c", some 1, some 0, some 0⟩]

/-- A store with run 0 sampled at seconds 1 and 3 and run 1 sampled at
second 2, used to show that the instant sequence ignores the requested run. -/
def rowsTwoRuns : List Row :=
  [⟨1, 0, 1, "c", some 0, some 0, some 0⟩,
   ⟨1, 0, 3, "c", some 1, some 0, some 0⟩,
   ⟨2, 1, 2, "c", some 5, some 5, some 1⟩]

/-- A store where vehicle 7 is sampled at both instants 1 and 2 of run 0 but
vehicle 9 only at instant 1, used to instantiate the snapshot theorem. -/
def rowsSnap : List Row :=
  [⟨7, 0, 1, "ca", some 0, some 0, some 1⟩,
   ⟨7, 0, 2, "ca", some 1, some 0, some 2⟩,
   ⟨9, 0, 1, "ca", some 5, some 5, some 1⟩]

/-- Squared distance from point `p` to the segment from `a` to `b` (shapely's
point-to-`LineString`-segment distance, squared): the squared distance from `p`
to its projection onto the segment, the projection parameter being clamped to
`[0, 1]`. -/
def segDist2 (p a b : Pt) : ℚ :=
  if (b.x - a.x) * (b.x - a.x) + (b.y - a.y) * (b.y - a.y) = 0 then dist2 p a
  else
    dist2 p
      ⟨a.x + max 0 (min 1 (((p.x - a.x) * (b.x - a.x) + (p.y - a.y) * (b.y - a.y)) /
          ((b.x - a.x) * (b.x - a.x) + (b.y - a.y) * (b.y - a.y)))) * (b.x - a.x),
       a.y + max 0 (min 1 (((p.x - a.x) * (b.x - a.x) + (p.y - a.y) * (b.y - a.y)) /
          ((b.x - a.x) * (b.x - a.x) + (b.y - a.y) * (b.y - a.y)))) * (b.y - a.y)⟩

/-- Squared distance from a point to a polyline: the minimum over its
segments (a `LineString` always has at least two points; the one-point and
empty cases are junk values, never hit by loaded lanes). -/
def lineDist2 (p : Pt) : List Pt → ℚ
  | [] => 0
  | [a] => dist2 p a
  | a :: b :: rest => min (segDist2 p a b) (lineDist2 p (b :: rest))

/-- A lane record parsed from the SUMO network file (sql2collisions.py:50-64). -/
structure Lane where
  edge_id : String
  lane_id : String
  index : ℤ
  speed : ℚ
  length : ℚ
  points : List Pt
deriving DecidableEq

/-- `STRtree.nearest`: a lane whose polyline minimises the distance to `p`.
Tie-breaking between equidistant lanes is index-order-dependent in the source;
this embedding keeps the earliest lane of the list on ties. -/
def nearestLane (p : Pt) : List Lane → Option Lane
  | [] => none
  | [l] => some l
  | l :: l2 :: rest =>
    match nearestLane p (l2 :: rest) with
    | some m => some (if lineDist2 p m.points < lineDist2 p l.points then m else l)
    | none => some l

/-- `EdgeLookup` (sql2collisions.py:68-78): the loaded lanes and the
coordinate transformer. -/
structure EdgeLookup where
  lanes : List Lane
  xformer : CoordTransformer

/-- `EdgeLookup.find` (sql2collisions.py:80-85): transform the query point to
the network plane, take the nearest lane, and raise if it is farther than the
threshold.  The source compares `nearest.distance(traciPos) > threshold` on
Euclidean distances; since the distance is non-negative this holds iff
`threshold < 0` or `threshold^2` is less than the squared distance, which is
the exact comparison used here. -/
def EdgeLookup.find (el : EdgeLookup) (pos : Pt) (threshold : ℚ) :
    Except String Lane :=
  match nearestLane (el.xformer.omnet2traci pos) el.lanes with
  | none => .error "empty network"
  | some nearest =>
    if threshold < 0 ∨
        threshold * threshold < lineDist2 (el.xformer.omnet2traci pos) nearest.points then
      .error "too far away"
    else
      .ok nearest

/-- `snapshot.get(nearby_vehicle_id)` (sql2collisions.py:282): dictionary
lookup among the snapshot's entries (whose keys are unique). -/
def lookupVehicle (snap : List (ℕ × Vehicle)) (k : ℕ) : Option Vehicle :=
  (snap.find? (fun kv => decide (kv.1 = k))).map Prod.snd

/-- `snapshot.end()` (sql2collisions.py:192-193): the (id, current position)
pairs the per-snapshot `ProximityHelper` is built over. -/
def snapshotEnd (snap : List (ℕ × Vehicle)) : List (ℕ × Pt) :=
  snap.map (fun kv => (kv.1, kv.2.curr_pos))

/-- The body of the inner candidate loop of `main` (sql2collisions.py:279-301)
for one candidate `c` returned by the proximity query around vehicle
`(vid, v)`: skip `c` when it is `v` itself, when its lane differs from `v`'s,
or when `v` is not following it; otherwise produce the collision row
`(leader = c, follower = v, seconds = t, lane = v's lane)`.  Lane resolution is
the total function `laneOf` (its failure path is `EdgeLookup.find`'s error,
which aborts the run and is treated separately).  The `none` lookup branch is
unreachable: candidates come from the snapshot itself. -/
def considerCandidate (laneOf : Pt → String) (snap : List (ℕ × Vehicle))
    (vid : ℕ) (v : Vehicle) (t : ℚ) (c : ℕ × Pt) : Option CollisionRec :=
  if c.1 = vid then none
  else
    (lookupVehicle snap c.1).bind (fun w =>
      if laneOf w.curr_pos ≠ laneOf v.curr_pos then none
      else if is_following v.prev_pos v.curr_pos w.prev_pos w.curr_pos then
        some ⟨c.1, vid, t, laneOf v.curr_pos⟩
      else none)

/-- One snapshot-pair iteration of `main`'s detection loop
(sql2collisions.py:264-301): for every vehicle of the snapshot, query the
proximity index built over the snapshot's end positions with radius
`speed * ttc` and process every returned candidate. -/
def detectStep (laneOf : Pt → String) (snap : List (ℕ × Vehicle)) (ttc t : ℚ) :
    List CollisionRec :=
  snap.flatMap (fun kv =>
    ((ProximityHelper.mk (snapshotEnd snap)).find kv.2.curr_pos
        (kv.2.speed * ttc)).filterMap
      (considerCandidate laneOf snap kv.1 kv.2 t))

/-- A constant lane resolution: every position is on lane "L0". -/
def laneConst : Pt → String := fun _ => "L0"

/-- A snapshot with a leader (id 1) ahead of a faster follower (id 2), used to
instantiate the detection-loop theorem. -/
def snapEx : List (ℕ × Vehicle) :=
  [(1, ⟨⟨3, 0⟩, ⟨4, 0⟩, 0, "ca"⟩), (2, ⟨⟨0, 0⟩, ⟨1, 0⟩, 5, "ca"⟩)]

/-- A single straight lane along the x axis of the network plane. -/
def laneEx : Lane := ⟨"edge0", "lane0", 0, 10, 10, [⟨0, 0⟩, ⟨10, 0⟩]⟩

/-- An `EdgeLookup` over `laneEx` whose transformer flips the y axis of the
10 by 10 bounding box with no margin. -/
def edgeLookupEx : EdgeLookup := ⟨[laneEx], ⟨⟨0, 0⟩, ⟨10, 10⟩, 0⟩⟩

/-! ## Basic facts about squared distances -/

theorem dist2_nonneg (p q : Pt) : 0 ≤ dist2 p q := by
  unfold dist2
  exact add_nonneg (mul_self_nonneg _) (mul_self_nonneg _)

theorem dist2_comm (p q : Pt) : dist2 p q = dist2 q p := by
  unfold dist2; ring

theorem dist2_cast_nonneg (p q : Pt) : (0 : ℝ) ≤ ((dist2 p q : ℚ) : ℝ) := by
  exact_mod_cast dist2_nonneg p q

/-- C2: `is_following(u_prev, u_curr, v_prev, v_curr)` returns true iff
`distance(u_prev, v_curr) > distance(u_prev, v_prev)` and
`distance(u_curr, v_curr) <= distance(u_prev, v_prev)` hold for genuine
Euclidean distances, and the three fixed examples evaluate to true, false and
false respectively. -/
theorem C2_is_following :
    (∀ up uc vp vc : Pt,
      is_following up uc vp vc = true ↔
        (Real.sqrt ((dist2 up vp : ℚ) : ℝ) < Real.sqrt ((dist2 up vc : ℚ) : ℝ) ∧
         Real.sqrt ((dist2 uc vc : ℚ) : ℝ) ≤ Real.sqrt ((dist2 up vp : ℚ) : ℝ)))
    ∧ is_following ⟨0, 0⟩ ⟨1, 0⟩ ⟨3, 0⟩ ⟨4, 0⟩ = true
    ∧ is_following ⟨3, 0⟩ ⟨4, 0⟩ ⟨0, 0⟩ ⟨1, 0⟩ = false
    ∧ is_following ⟨2, 0⟩ ⟨1, 0⟩ ⟨3, 0⟩ ⟨4, 0⟩ = false := by
  refine ⟨fun up uc vp vc => ?_, by norm_num [is_following, dist2],
    by norm_num [is_following, dist2], by norm_num [is_following, dist2]⟩
  rw [is_following, Bool.and_eq_true, decide_eq_true_eq, decide_eq_true_eq,
    Real.sqrt_lt_sqrt_iff (dist2_cast_nonneg up vp),
    Real.sqrt_le_sqrt_iff (dist2_cast_nonneg up vp)]
  constructor
  · rintro ⟨h1, h2⟩
    exact ⟨by exact_mod_cast h1, by exact_mod_cast h2⟩
  · rintro ⟨h1, h2⟩
    exact ⟨by exact_mod_cast h1, by exact_mod_cast h2⟩

/-- Witness for C2: the constant-gap example satisfies the first distance
condition of the characterisation. -/
theorem C2_is_following_witness :
    Real.sqrt ((dist2 ⟨0, 0⟩ ⟨3, 0⟩ : ℚ) : ℝ) < Real.sqrt ((dist2 ⟨0, 0⟩ ⟨4, 0⟩ : ℚ) : ℝ) :=
  ((C2_is_following.1 ⟨0, 0⟩ ⟨1, 0⟩ ⟨3, 0⟩ ⟨4, 0⟩).mp
    (by norm_num [is_following, dist2])).1

/-- C6: the round trip `traci2omnet (omnet2traci p)` is exactly `p` for every
transformer (in exact arithmetic), hence in particular within the 1e-9
floating-point tolerance. -/
theorem C6_roundtrip (c : CoordTransformer) (p : Pt) :
    c.traci2omnet (c.omnet2traci p) = p ∧
    dist2 (c.traci2omnet (c.omnet2traci p)) p ≤ 1 / 10 ^ 18 := by
  have h : c.traci2omnet (c.omnet2traci p) = p := by
    cases p with
    | mk px py =>
      simp only [CoordTransformer.traci2omnet, CoordTransformer.omnet2traci,
        CoordTransformer.dimensions, Pt.mk.injEq]
      constructor <;> ring
  refine ⟨h, ?_⟩
  rw [h]
  have h0 : dist2 p p = 0 := by simp [dist2]
  rw [h0]
  norm_num

/-- C9 counterexample: both directions of `is_following` hold simultaneously
when each vehicle's step carries it beyond the other's previous position while
the two stay within the initial gap of each other. -/
theorem C9_counterexample :
    is_following ⟨0, 0⟩ ⟨21, 0⟩ ⟨10, 0⟩ ⟨30, 0⟩ = true ∧
    is_following ⟨10, 0⟩ ⟨30, 0⟩ ⟨0, 0⟩ ⟨21, 0⟩ = true := by
  norm_num [is_following, dist2]

/-- C9 (amended): both directions of `is_following` hold exactly when each
vehicle's current position is farther from the other's previous position than
the initial gap while the two current positions stay within that gap; outside
this overshoot configuration at most one direction holds.  For the constant-gap
rear-end example exactly one direction holds, and for the opposite-direction
example neither direction holds. -/
theorem C9_amended :
    (∀ up uc vp vc : Pt,
        (is_following up uc vp vc = true ∧ is_following vp vc up uc = true) ↔
          (dist2 up vp < dist2 up vc ∧ dist2 up vp < dist2 vp uc ∧
           dist2 uc vc ≤ dist2 up vp))
    ∧ (is_following ⟨0, 0⟩ ⟨1, 0⟩ ⟨3, 0⟩ ⟨4, 0⟩ = true ∧
       is_following ⟨3, 0⟩ ⟨4, 0⟩ ⟨0, 0⟩ ⟨1, 0⟩ = false)
    ∧ (is_following ⟨2, 0⟩ ⟨1, 0⟩ ⟨3, 0⟩ ⟨4, 0⟩ = false ∧
       is_following ⟨3, 0⟩ ⟨4, 0⟩ ⟨2, 0⟩ ⟨1, 0⟩ = false) := by
  refine ⟨fun up uc vp vc => ?_, by norm_num [is_following, dist2],
    by norm_num [is_following, dist2]⟩
  simp only [is_following, Bool.and_eq_true, decide_eq_true_eq]
  constructor
  · rintro ⟨⟨h1, h2⟩, h3, h4⟩
    refine ⟨h1, ?_, h2⟩
    rw [dist2_comm up vp]
    exact h3
  · rintro ⟨h1, h2, h3⟩
    refine ⟨⟨h1, h3⟩, ?_, ?_⟩
    · rw [dist2_comm vp up]
      exact h2
    · rw [dist2_comm vc uc, dist2_comm vp up]
      exact h3

/-- Witness for C9 (amended): the overshoot counterexample satisfies the
characterising distance conditions. -/
theorem C9_amended_witness :
    dist2 ⟨0, 0⟩ ⟨10, 0⟩ < dist2 ⟨0, 0⟩ ⟨30, 0⟩ ∧
    dist2 ⟨0, 0⟩ ⟨10, 0⟩ < dist2 ⟨10, 0⟩ ⟨21, 0⟩ ∧
    dist2 ⟨21, 0⟩ ⟨30, 0⟩ ≤ dist2 ⟨0, 0⟩ ⟨10, 0⟩ :=
  (C9_amended.1 ⟨0, 0⟩ ⟨21, 0⟩ ⟨10, 0⟩ ⟨30, 0⟩).mp (by norm_num [is_following, dist2])

/-- C3: `ProximityHelper.find` matches on bounding-box extents, not Euclidean
distance.  With center `(0,0)` and radius `1`, the indexed point `(0.9, 0.9)`
is returned even though its Euclidean distance to the center,
`sqrt(1.62) ~ 1.27`, exceeds the radius. -/
theorem C3_bbox_bug :
    (ProximityHelper.mk [(1, ⟨9 / 10, 9 / 10⟩)]).find ⟨0, 0⟩ 1 =
      [(1, ⟨9 / 10, 9 / 10⟩)] ∧
    1 < Real.sqrt ((dist2 ⟨0, 0⟩ ⟨9 / 10, 9 / 10⟩ : ℚ) : ℝ) := by
  constructor
  · norm_num [ProximityHelper.find, List.filter]
  · have h : ((dist2 ⟨0, 0⟩ ⟨9 / 10, 9 / 10⟩ : ℚ) : ℝ) = 81 / 50 := by
      norm_num [dist2]
    rw [h]
    exact (Real.lt_sqrt (by norm_num)).mpr (by norm_num)

/-! ## Idempotence of the collision store -/

theorem sameKey_refl (r : CollisionRec) : sameKey r r = true := by
  simp [sameKey]

theorem keyMem_insertOrIgnore (store : List CollisionRec) (r r' : CollisionRec)
    (h : keyMem store r) : keyMem (insertOrIgnore store r') r := by
  unfold insertOrIgnore
  split
  · exact h
  · show ((store ++ [r']).any fun s => sameKey s r) = true
    rw [List.any_append, h, Bool.true_or]

theorem keyMem_insertOrIgnore_self (store : List CollisionRec) (r : CollisionRec) :
    keyMem (insertOrIgnore store r) r := by
  unfold insertOrIgnore
  split
  next h => exact h
  next h =>
    show ((store ++ [r]).any fun s => sameKey s r) = true
    rw [List.any_append]
    have h2 : ([r].any fun s => sameKey s r) = true := by
      simp [List.any_cons, sameKey_refl]
    rw [h2, Bool.or_true]

theorem keyMem_runInserts (store : List CollisionRec) (rs : List CollisionRec)
    (r : CollisionRec) (h : keyMem store r) : keyMem (runInserts store rs) r := by
  induction rs generalizing store with
  | nil => exact h
  | cons a tl ih =>
    show keyMem (runInserts (insertOrIgnore store a) tl) r
    exact ih _ (keyMem_insertOrIgnore store r a h)

theorem keyMem_runInserts_of_mem (r : CollisionRec) :
    ∀ (rs store : List CollisionRec), r ∈ rs → keyMem (runInserts store rs) r
  | [], _, h => absurd h (List.not_mem_nil r)
  | a :: tl, store, h => by
    rcases List.mem_cons.mp h with rfl | h2
    · exact keyMem_runInserts (insertOrIgnore store r) tl r
        (keyMem_insertOrIgnore_self store r)
    · exact keyMem_runInserts_of_mem r tl (insertOrIgnore store a) h2

theorem insertOrIgnore_of_keyMem (store : List CollisionRec) (r : CollisionRec)
    (h : keyMem store r) : insertOrIgnore store r = store := by
  unfold insertOrIgnore
  rw [if_pos h]

theorem runInserts_eq_of_keyMem :
    ∀ (rs store : List CollisionRec), (∀ r ∈ rs, keyMem store r) →
      runInserts store rs = store
  | [], _, _ => rfl
  | a :: tl, store, h => by
    have ha : insertOrIgnore store a = store :=
      insertOrIgnore_of_keyMem store a (h a (List.mem_cons_self a tl))
    show runInserts (insertOrIgnore store a) tl = store
    rw [ha]
    exact runInserts_eq_of_keyMem tl store (fun r hr => h r (List.mem_cons_of_mem a hr))

/-- C7: inserting a collision row whose primary key
`(leader, follower, seconds)` is already persisted leaves the store unchanged,
and replaying the whole insert sequence of a detection run a second time is a
no-op, so re-running detection over identical input yields an identical
collision set with no duplicate rows. -/
theorem C7_idempotent :
    (∀ store r, keyMem store r → insertOrIgnore store r = store) ∧
    (∀ store rs, runInserts (runInserts store rs) rs = runInserts store rs) := by
  refine ⟨insertOrIgnore_of_keyMem, fun store rs => ?_⟩
  exact runInserts_eq_of_keyMem rs (runInserts store rs)
    (fun r hr => keyMem_runInserts_of_mem r rs store hr)

/-- Witness for C7 at a concrete store and insert sequence. -/
theorem C7_idempotent_witness :
    insertOrIgnore storeEx ⟨1, 2, 3, "L1"⟩ = storeEx ∧
    runInserts (runInserts [] insertsEx) insertsEx = runInserts [] insertsEx :=
  ⟨C7_idempotent.1 storeEx ⟨1, 2, 3, "L1"⟩ (by norm_num [storeEx, sameKey]),
   C7_idempotent.2 [] insertsEx⟩

/-! ## Snapshot construction -/

theorem lastAssoc_mem {α : Type} :
    ∀ (l : List (ℕ × α)) (k : ℕ) (v : α), lastAssoc l k = some v → (k, v) ∈ l
  | [], _, _, h => by simp [lastAssoc] at h
  | kv :: rest, k, v, h => by
    cases hr : lastAssoc rest k with
    | some w =>
      simp only [lastAssoc, hr, Option.some.injEq] at h
      subst h
      exact List.mem_cons_of_mem _ (lastAssoc_mem rest k w hr)
    | none =>
      simp only [lastAssoc, hr] at h
      split at h
      · next heq =>
        simp only [Option.some.injEq] at h
        subst h
        rw [← heq]
        exact List.mem_cons_self _ _
      · next => simp at h

theorem lastAssoc_isSome_iff {α : Type} :
    ∀ (l : List (ℕ × α)) (k : ℕ), (lastAssoc l k).isSome = true ↔ ∃ v, (k, v) ∈ l
  | [], k => by simp [lastAssoc]
  | kv :: rest, k => by
    cases hr : lastAssoc rest k with
    | some w =>
      simp only [lastAssoc, hr, Option.isSome_some, true_iff]
      exact ⟨w, List.mem_cons_of_mem _ (lastAssoc_mem rest k w hr)⟩
    | none =>
      have ih := lastAssoc_isSome_iff rest k
      rw [hr] at ih
      simp only [Option.isSome_none, Bool.false_eq_true, false_iff] at ih
      simp only [lastAssoc, hr]
      split
      · next heq =>
        simp only [Option.isSome_some, true_iff]
        exact ⟨kv.2, by rw [← heq]; exact List.mem_cons_self _ _⟩
      · next hne =>
        simp only [Option.isSome_none, Bool.false_eq_true, false_iff]
        rintro ⟨v, hv⟩
        rcases List.mem_cons.mp hv with heq2 | hm
        · exact hne (by rw [← heq2])
        · exact ih ⟨v, hm⟩

theorem mem_start_data (rows : List Row) (run : ℕ) (t : ℚ) (k : ℕ)
    (v : Pt × String) :
    (k, v) ∈ start_data rows run t ↔
      ∃ r ∈ rows, sqlWhere r run t = true ∧ r.node_id = k ∧
        v = (rowPos r, r.controller) := by
  unfold start_data
  rw [List.mem_map]
  constructor
  · rintro ⟨r, hr, heq⟩
    rw [List.mem_filter] at hr
    rw [Prod.mk.injEq] at heq
    exact ⟨r, hr.1, hr.2, heq.1, heq.2.symm⟩
  · rintro ⟨r, hr, hw, hk, hv⟩
    exact ⟨r, List.mem_filter.mpr ⟨hr, hw⟩, by rw [hk, hv]⟩

theorem mem_end_data (rows : List Row) (run : ℕ) (t : ℚ) (k : ℕ)
    (v : Pt × ℚ × String) :
    (k, v) ∈ end_data rows run t ↔
      ∃ r ∈ rows, sqlWhere r run t = true ∧ r.node_id = k ∧
        v = (rowPos r, r.appl_speed.getD 0, r.controller) := by
  unfold end_data
  rw [List.mem_map]
  constructor
  · rintro ⟨r, hr, heq⟩
    rw [List.mem_filter] at hr
    rw [Prod.mk.injEq] at heq
    exact ⟨r, hr.1, hr.2, heq.1, heq.2.symm⟩
  · rintro ⟨r, hr, hw, hk, hv⟩
    exact ⟨r, List.mem_filter.mpr ⟨hr, hw⟩, by rw [hk, hv]⟩

theorem snapshotGet_isSome (rows : List Row) (run : ℕ) (s e : ℚ) (k : ℕ) :
    (snapshotGet rows run s e k).isSome = true ↔
      (lastAssoc (start_data rows run s) k).isSome = true ∧
      (lastAssoc (end_data rows run e) k).isSome = true := by
  unfold snapshotGet
  cases lastAssoc (start_data rows run s) k <;>
    cases lastAssoc (end_data rows run e) k <;> simp

/-- C4: a vehicle id appears in the snapshot iff the store has a row with
non-null position and speed for it at both the start and the end instant; its
state takes `prev_pos` from a start-instant row and `curr_pos`, `speed` and
`controller` from an end-instant row; a vehicle observed at only one of the two
instants never appears (and with no common id the snapshot is empty, with no
error path). -/
theorem C4_snapshot (rows : List Row) (run : ℕ) (s e : ℚ) (k : ℕ) :
    ((snapshotGet rows run s e k).isSome = true ↔
      ((∃ r ∈ rows, sqlWhere r run s = true ∧ r.node_id = k) ∧
       (∃ r ∈ rows, sqlWhere r run e = true ∧ r.node_id = k))) ∧
    (∀ veh, snapshotGet rows run s e k = some veh →
      (∃ r ∈ rows, sqlWhere r run s = true ∧ r.node_id = k ∧
        veh.prev_pos = rowPos r) ∧
      (∃ r ∈ rows, sqlWhere r run e = true ∧ r.node_id = k ∧
        veh.curr_pos = rowPos r ∧ veh.speed = r.appl_speed.getD 0 ∧
        veh.controller = r.controller)) := by
  constructor
  · rw [snapshotGet_isSome, lastAssoc_isSome_iff, lastAssoc_isSome_iff]
    constructor
    · rintro ⟨⟨sd, hsd⟩, ⟨ed, hed⟩⟩
      obtain ⟨r1, hr1, hw1, hk1, _⟩ := (mem_start_data rows run s k sd).mp hsd
      obtain ⟨r2, hr2, hw2, hk2, _⟩ := (mem_end_data rows run e k ed).mp hed
      exact ⟨⟨r1, hr1, hw1, hk1⟩, ⟨r2, hr2, hw2, hk2⟩⟩
    · rintro ⟨⟨r1, hr1, hw1, hk1⟩, ⟨r2, hr2, hw2, hk2⟩⟩
      exact ⟨⟨(rowPos r1, r1.controller),
               (mem_start_data rows run s k _).mpr ⟨r1, hr1, hw1, hk1, rfl⟩⟩,
             ⟨(rowPos r2, r2.appl_speed.getD 0, r2.controller),
               (mem_end_data rows run e k _).mpr ⟨r2, hr2, hw2, hk2, rfl⟩⟩⟩
  · intro veh h
    unfold snapshotGet at h
    cases hs' : lastAssoc (start_data rows run s) k with
    | none => rw [hs'] at h; simp at h
    | some sd =>
      cases he' : lastAssoc (end_data rows run e) k with
      | none => rw [hs', he'] at h; simp at h
      | some ed =>
        rw [hs', he'] at h
        simp only [Option.some.injEq] at h
        subst h
        have h1 := lastAssoc_mem _ k sd hs'
        have h2 := lastAssoc_mem _ k ed he'
        obtain ⟨r1, hr1, hw1, hk1, hv1⟩ := (mem_start_data rows run s k sd).mp h1
        obtain ⟨r2, hr2, hw2, hk2, hv2⟩ := (mem_end_data rows run e k ed).mp h2
        subst hv1
        subst hv2
        exact ⟨⟨r1, hr1, hw1, hk1, rfl⟩, ⟨r2, hr2, hw2, hk2, rfl, rfl, rfl⟩⟩

/-- Witness for C4: in `rowsSnap`, vehicle 7 (sampled at both instants) is in
the snapshot for the window (1, 2) of run 0, while vehicle 9 (sampled at
instant 1 only) is not. -/
theorem C4_snapshot_witness :
    (snapshotGet rowsSnap 0 1 2 7).isSome = true ∧
    (snapshotGet rowsSnap 0 1 2 9).isSome = false := by
  constructor
  · exact ((C4_snapshot rowsSnap 0 1 2 7).1).mpr
      ⟨⟨⟨7, 0, 1, "ca", some 0, some 0, some 1⟩, List.mem_cons_self _ _,
        by simp [sqlWhere], rfl⟩,
       ⟨⟨7, 0, 2, "ca", some 1, some 0, some 2⟩,
        List.mem_cons_of_mem _ (List.mem_cons_self _ _),
        by simp [sqlWhere], rfl⟩⟩
  · have h9 := (C4_snapshot rowsSnap 0 1 2 9).1
    have hno : ¬ ((∃ r ∈ rowsSnap, sqlWhere r 0 1 = true ∧ r.node_id = 9) ∧
        (∃ r ∈ rowsSnap, sqlWhere r 0 2 = true ∧ r.node_id = 9)) := by
      rintro ⟨_, ⟨r, hr, hw, hk⟩⟩
      simp only [rowsSnap, List.mem_cons, List.not_mem_nil, or_false] at hr
      rcases hr with rfl | rfl | rfl
      · norm_num [sqlWhere] at hw
      · norm_num at hk
      · norm_num [sqlWhere] at hw
    cases hb : (snapshotGet rowsSnap 0 1 2 9).isSome with
    | false => rfl
    | true => exact absurd (h9.mp hb) hno

/-! ## The instant sequence of the orchestration loop -/

theorem mem_insertAsc (x a : ℚ) : ∀ (l : List ℚ), a ∈ insertAsc x l ↔ a = x ∨ a ∈ l
  | [] => by simp [insertAsc]
  | y :: ys => by
    unfold insertAsc
    split
    · simp [List.mem_cons]
    · rw [List.mem_cons, mem_insertAsc x a ys, List.mem_cons]
      tauto

theorem mem_sortAsc (a : ℚ) : ∀ (l : List ℚ), a ∈ sortAsc l ↔ a ∈ l
  | [] => Iff.rfl
  | x :: xs => by
    unfold sortAsc
    rw [mem_insertAsc, mem_sortAsc a xs, List.mem_cons]

/-- C10: with both bounds supplied, the instant sequence of `main` consists of
exactly the whole-second sample times occurring in any row of the store inside
the bounds, with no restriction to the requested run: the sequence is the same
whatever run is requested. -/
theorem C10_instants (rows : List Row) (run : ℕ) (a b t : ℚ) :
    (t ∈ mainInstants rows run (some a) (some b) ↔
      ((∃ r ∈ rows, r.seconds = t) ∧ a ≤ t ∧ t ≤ b ∧ t.den = 1)) ∧
    (∀ run2 : ℕ, mainInstants rows run (some a) (some b) =
      mainInstants rows run2 (some a) (some b)) := by
  refine ⟨?_, fun run2 => rfl⟩
  unfold mainInstants sql_instants
  rw [List.mem_filter, mem_sortAsc, List.mem_filter, List.mem_dedup, List.mem_map]
  simp only [sqlGeParam, sqlLeParam, Bool.and_eq_true, decide_eq_true_eq]
  constructor
  · rintro ⟨⟨⟨r, hr, hrt⟩, ha, hb⟩, hd⟩
    exact ⟨⟨r, hr, hrt⟩, ha, hb, hd⟩
  · rintro ⟨⟨r, hr, hrt⟩, ha, hb, hd⟩
    exact ⟨⟨⟨r, hr, hrt⟩, ha, hb⟩, hd⟩

/-- Witness for C10: instant 2, sampled only by run 1, appears in the instant
sequence used for detecting on run 0. -/
theorem C10_instants_witness :
    (2 : ℚ) ∈ mainInstants rowsTwoRuns 0 (some 1) (some 3) :=
  ((C10_instants rowsTwoRuns 0 1 3 2).1).mpr
    ⟨⟨⟨2, 1, 2, "c", some 5, some 5, some 1⟩,
      List.mem_cons_of_mem _ (List.mem_cons_of_mem _ (List.mem_cons_self _ _)),
      rfl⟩,
     by norm_num, by norm_num, by norm_num⟩

/-- C8: `main` computes defaulted start/end bounds from the run's observed
range (lines 245-251) but executes the instants query with the raw CLI
parameters (line 259), so whenever a bound is omitted the comparison with the
NULL parameter filters every row out and the processed instant sequence is
empty — not the sequence an explicit full-range bound pair would give. -/
theorem C8_defaults_ignored :
    (∀ (rows : List Row) (run : ℕ) (argEnd : Option ℚ),
      mainInstants rows run none argEnd = []) ∧
    (∀ (rows : List Row) (run : ℕ) (argStart : Option ℚ),
      mainInstants rows run argStart none = []) ∧
    startTimeDefaulted rowsTwo 0 none = some 1 ∧
    endTimeDefaulted rowsTwo 0 none = some 2 ∧
    mainInstants rowsTwo 0 (some 1) (some 2) = [1, 2] := by
  refine ⟨?_, ?_, ?_, ?_, ?_⟩
  · intro rows run argEnd
    unfold mainInstants sql_instants
    have h : ((rows.map Row.seconds).dedup).filter
        (fun s => sqlGeParam none s && sqlLeParam argEnd s) = [] := by
      apply List.filter_eq_nil_iff.mpr
      intro s hs
      simp [sqlGeParam]
    rw [h]
    rfl
  · intro rows run argStart
    unfold mainInstants sql_instants
    have h : ((rows.map Row.seconds).dedup).filter
        (fun s => sqlGeParam argStart s && sqlLeParam none s) = [] := by
      apply List.filter_eq_nil_iff.mpr
      intro s hs
      simp [sqlLeParam]
    rw [h]
    rfl
  · norm_num [startTimeDefaulted, sqlMinSeconds, minQ, rowsTwo, min_def]
  · norm_num [endTimeDefaulted, sqlMaxSeconds, maxQ, rowsTwo, max_def]
  · norm_num [mainInstants, sql_instants, rowsTwo, sortAsc, insertAsc,
      sqlGeParam, sqlLeParam, List.filter, List.dedup]

/-! ## Lane lookup -/

theorem segDist2_nonneg (p a b : Pt) : 0 ≤ segDist2 p a b := by
  unfold segDist2
  split
  · exact dist2_nonneg p a
  · exact dist2_nonneg p _

theorem lineDist2_nonneg (p : Pt) : ∀ (pts : List Pt), 0 ≤ lineDist2 p pts
  | [] => le_refl 0
  | [a] => dist2_nonneg p a
  | a :: b :: rest => by
    have ih := lineDist2_nonneg p (b :: rest)
    unfold lineDist2
    exact le_min (segDist2_nonneg p a b) ih

theorem nearestLane_isSome (p : Pt) :
    ∀ (lanes : List Lane), lanes ≠ [] → ∃ n, nearestLane p lanes = some n
  | [], h => absurd rfl h
  | [l], _ => ⟨l, by simp [nearestLane]⟩
  | l :: l2 :: rest, _ => by
    obtain ⟨m, hm⟩ := nearestLane_isSome p (l2 :: rest) (by simp)
    exact ⟨if lineDist2 p m.points < lineDist2 p l.points then m else l,
      by simp only [nearestLane, hm]⟩

theorem nearestLane_mem (p : Pt) :
    ∀ (lanes : List Lane) (n : Lane), nearestLane p lanes = some n → n ∈ lanes
  | [], n, h => by simp [nearestLane] at h
  | [l], n, h => by
    simp only [nearestLane, Option.some.injEq] at h
    subst h
    exact List.mem_cons_self _ _
  | l :: l2 :: rest, n, h => by
    cases hm : nearestLane p (l2 :: rest) with
    | some m =>
      simp only [nearestLane, hm, Option.some.injEq] at h
      subst h
      split
      · exact List.mem_cons_of_mem _ (nearestLane_mem p (l2 :: rest) m hm)
      · exact List.mem_cons_self _ _
    | none =>
      simp only [nearestLane, hm, Option.some.injEq] at h
      subst h
      exact List.mem_cons_self _ _

theorem nearestLane_min (p : Pt) :
    ∀ (lanes : List Lane) (n : Lane), nearestLane p lanes = some n →
      ∀ l ∈ lanes, lineDist2 p n.points ≤ lineDist2 p l.points
  | [], n, h => by simp [nearestLane] at h
  | [l0], n, h => by
    simp only [nearestLane, Option.some.injEq] at h
    subst h
    intro l hl
    rcases List.mem_cons.mp hl with rfl | hl2
    · exact le_refl _
    · simp at hl2
  | l0 :: l2 :: rest, n, h => by
    cases hm : nearestLane p (l2 :: rest) with
    | some m =>
      have ihmin := nearestLane_min p (l2 :: rest) m hm
      simp only [nearestLane, hm, Option.some.injEq] at h
      subst h
      intro l hl
      rcases List.mem_cons.mp hl with rfl | hl2
      · split
        · next hlt => exact le_of_lt hlt
        · exact le_refl _
      · split
        · next hlt => exact ihmin l hl2
        · next hge => exact le_trans (not_lt.mp hge) (ihmin l hl2)
    | none =>
      obtain ⟨m, hm2⟩ := nearestLane_isSome p (l2 :: rest) (by simp)
      rw [hm] at hm2
      simp at hm2

theorem find_eq (el : EdgeLookup) (pos : Pt) (tol : ℚ) (n : Lane)
    (hn : nearestLane (el.xformer.omnet2traci pos) el.lanes = some n) :
    el.find pos tol =
      if tol < 0 ∨ tol * tol < lineDist2 (el.xformer.omnet2traci pos) n.points then
        .error "too far away"
      else .ok n := by
  unfold EdgeLookup.find
  rw [hn]

/-- C5: `EdgeLookup.find` transforms the query point with `omnet2traci`,
selects a nearest lane, and errors out exactly when the residual Euclidean
distance to that nearest lane exceeds the tolerance; when the transformed
point lies on some lane's polyline the lookup succeeds with a zero-residual
lane — that very lane whenever no other lane also passes through the point. -/
theorem C5_findLane (el : EdgeLookup) (pos : Pt) (tol : ℚ) (hne : el.lanes ≠ []) :
    ∃ n, nearestLane (el.xformer.omnet2traci pos) el.lanes = some n ∧
      ((∃ msg, el.find pos tol = .error msg) ↔
        (tol : ℝ) <
          Real.sqrt ((lineDist2 (el.xformer.omnet2traci pos) n.points : ℚ) : ℝ)) ∧
      (0 ≤ tol → ∀ L ∈ el.lanes,
        lineDist2 (el.xformer.omnet2traci pos) L.points = 0 →
          el.find pos tol = .ok n ∧
          lineDist2 (el.xformer.omnet2traci pos) n.points = 0 ∧
          ((∀ L2 ∈ el.lanes, L2 ≠ L →
              0 < lineDist2 (el.xformer.omnet2traci pos) L2.points) → n = L)) := by
  obtain ⟨n, hn⟩ := nearestLane_isSome (el.xformer.omnet2traci pos) el.lanes hne
  have hd0 : (0 : ℝ) ≤ ((lineDist2 (el.xformer.omnet2traci pos) n.points : ℚ) : ℝ) := by
    exact_mod_cast lineDist2_nonneg (el.xformer.omnet2traci pos) n.points
  refine ⟨n, hn, ?_, ?_⟩
  · constructor
    · rintro ⟨msg, hmsg⟩
      rw [find_eq el pos tol n hn] at hmsg
      by_cases hc : tol < 0 ∨
          tol * tol < lineDist2 (el.xformer.omnet2traci pos) n.points
      · rcases hc with hneg | hlt
        · exact lt_of_lt_of_le (by exact_mod_cast hneg) (Real.sqrt_nonneg _)
        · by_cases htol : 0 ≤ tol
          · apply (Real.lt_sqrt (by exact_mod_cast htol)).mpr
            rw [pow_two]
            exact_mod_cast hlt
          · exact lt_of_lt_of_le (by exact_mod_cast not_le.mp htol)
              (Real.sqrt_nonneg _)
      · rw [if_neg hc] at hmsg
        simp at hmsg
    · intro hlt
      rw [find_eq el pos tol n hn]
      have hc : tol < 0 ∨
          tol * tol < lineDist2 (el.xformer.omnet2traci pos) n.points := by
        by_cases htol : 0 ≤ tol
        · right
          have h2 := (Real.lt_sqrt (by exact_mod_cast htol)).mp hlt
          rw [pow_two] at h2
          exact_mod_cast h2
        · exact Or.inl (not_le.mp htol)
      rw [if_pos hc]
      exact ⟨"too far away", rfl⟩
  · intro htol L hL hL0
    have hmin := nearestLane_min (el.xformer.omnet2traci pos) el.lanes n hn L hL
    have hn0 : lineDist2 (el.xformer.omnet2traci pos) n.points = 0 :=
      le_antisymm (hL0 ▸ hmin) (lineDist2_nonneg _ _)
    have hcond : ¬(tol < 0 ∨
        tol * tol < lineDist2 (el.xformer.omnet2traci pos) n.points) := by
      rw [hn0]
      rintro (h1 | h2)
      · exact absurd htol (not_le.mpr h1)
      · exact absurd h2 (not_lt.mpr (mul_self_nonneg tol))
    refine ⟨?_, hn0, ?_⟩
    · rw [find_eq el pos tol n hn, if_neg hcond]
    · intro huniq
      by_contra hne2
      have hpos := huniq n (nearestLane_mem _ el.lanes n hn) hne2
      rw [hn0] at hpos
      exact lt_irrefl 0 hpos

/-- Witness for C5: the transform of `(3, 10)` is `(3, 0)`, which lies on the
single lane of `edgeLookupEx`; the lookup returns that lane with the default
tolerance. -/
theorem C5_findLane_witness :
    edgeLookupEx.find ⟨3, 10⟩ (1 / 10) = Except.ok laneEx := by
  have hnonempty : edgeLookupEx.lanes ≠ [] := by simp [edgeLookupEx]
  obtain ⟨n, hn, _herr, hzero⟩ := C5_findLane edgeLookupEx ⟨3, 10⟩ (1 / 10) hnonempty
  have hL : laneEx ∈ edgeLookupEx.lanes := by simp [edgeLookupEx]
  have hd0 : lineDist2 (edgeLookupEx.xformer.omnet2traci ⟨3, 10⟩) laneEx.points = 0 := by
    norm_num [edgeLookupEx, laneEx, CoordTransformer.omnet2traci,
      CoordTransformer.dimensions, lineDist2, segDist2, dist2, min_def, max_def]
  obtain ⟨hok, hres, huniq⟩ := hzero (by norm_num) laneEx hL hd0
  have hnL : n = laneEx := by
    apply huniq
    intro L2 hL2 hne2
    exfalso
    apply hne2
    simpa [edgeLookupEx] using hL2
  rw [hnL] at hok
  exact hok

/-! ## The per-snapshot detection loop -/

theorem lookupVehicle_eq_some_of_mem :
    ∀ (snap : List (ℕ × Vehicle)) (k : ℕ) (w : Vehicle),
      (snap.map Prod.fst).Nodup → (k, w) ∈ snap → lookupVehicle snap k = some w
  | [], _, _, _, h => absurd h (List.not_mem_nil _)
  | kv :: rest, k, w, hnd, h => by
    rw [List.map_cons, List.nodup_cons] at hnd
    rcases List.mem_cons.mp h with rfl | hmem
    · unfold lookupVehicle
      rw [List.find?_cons_of_pos _ (by simp)]
      rfl
    · by_cases hk : kv.1 = k
      · exfalso
        apply hnd.1
        rw [hk]
        exact List.mem_map.mpr ⟨(k, w), hmem, rfl⟩
      · unfold lookupVehicle
        rw [List.find?_cons_of_neg _ (by simp [hk])]
        exact lookupVehicle_eq_some_of_mem rest k w hnd.2 hmem

theorem lookupVehicle_mem (snap : List (ℕ × Vehicle)) (k : ℕ) (w : Vehicle)
    (h : lookupVehicle snap k = some w) : (k, w) ∈ snap := by
  unfold lookupVehicle at h
  cases hf : snap.find? (fun kv => decide (kv.1 = k)) with
  | none => rw [hf] at h; simp at h
  | some kv =>
    rw [hf] at h
    have hmem := List.mem_of_find?_eq_some hf
    have hp := List.find?_some hf
    cases kv with
    | mk a b =>
      simp only [decide_eq_true_eq] at hp
      simp only [Option.map_some'] at h
      injection h with h2
      subst hp
      subst h2
      exact hmem

theorem nodup_key_unique (snap : List (ℕ × Vehicle))
    (hnd : (snap.map Prod.fst).Nodup) {k : ℕ} {a b : Vehicle}
    (ha : (k, a) ∈ snap) (hb : (k, b) ∈ snap) : a = b := by
  have h1 := lookupVehicle_eq_some_of_mem snap k a hnd ha
  have h2 := lookupVehicle_eq_some_of_mem snap k b hnd hb
  rw [h1] at h2
  exact Option.some.inj h2

theorem mem_ProximityHelper_find (pts : List (ℕ × Pt)) (pos : Pt) (thr : ℚ)
    (c : ℕ × Pt) :
    c ∈ (ProximityHelper.mk pts).find pos thr ↔
      c ∈ pts ∧ 0 < thr ∧ pos.x - thr ≤ c.2.x ∧ c.2.x ≤ pos.x + thr ∧
        pos.y - thr ≤ c.2.y ∧ c.2.y ≤ pos.y + thr := by
  unfold ProximityHelper.find
  split
  · next h =>
    simp only [List.not_mem_nil, false_iff]
    rintro ⟨_, hthr, _⟩
    exact absurd hthr (not_lt.mpr h)
  · next h =>
    rw [List.mem_filter]
    simp only [Bool.and_eq_true, decide_eq_true_eq]
    constructor
    · rintro ⟨hc, ⟨⟨⟨h1, h2⟩, h3⟩, h4⟩⟩
      exact ⟨hc, not_le.mp h, h1, h2, h3, h4⟩
    · rintro ⟨hc, _, h1, h2, h3, h4⟩
      exact ⟨hc, ⟨⟨⟨h1, h2⟩, h3⟩, h4⟩⟩

theorem mem_snapshotEnd (snap : List (ℕ × Vehicle)) (k : ℕ) (q : Pt) :
    (k, q) ∈ snapshotEnd snap ↔ ∃ w, (k, w) ∈ snap ∧ q = w.curr_pos := by
  unfold snapshotEnd
  rw [List.mem_map]
  constructor
  · rintro ⟨kv, hkv, heq⟩
    rw [Prod.mk.injEq] at heq
    exact ⟨kv.2, by rw [← heq.1]; exact hkv, heq.2.symm⟩
  · rintro ⟨w, hw, hq⟩
    exact ⟨(k, w), hw, by rw [hq]⟩

theorem considerCandidate_eq_some (laneOf : Pt → String)
    (snap : List (ℕ × Vehicle)) (vid : ℕ) (v : Vehicle) (t : ℚ) (c : ℕ × Pt)
    (r : CollisionRec) :
    considerCandidate laneOf snap vid v t c = some r ↔
      (c.1 ≠ vid ∧ ∃ w, lookupVehicle snap c.1 = some w ∧
        laneOf w.curr_pos = laneOf v.curr_pos ∧
        is_following v.prev_pos v.curr_pos w.prev_pos w.curr_pos = true ∧
        r = ⟨c.1, vid, t, laneOf v.curr_pos⟩) := by
  unfold considerCandidate
  split
  · next heq => simp [heq]
  · next hne =>
    cases hw : lookupVehicle snap c.1 with
    | none => simp [hne]
    | some w =>
      simp only [Option.some_bind, Option.some.injEq, exists_eq_left']
      split
      · next hlane => simp [hne, hlane]
      · next hlane =>
        have hlane2 : laneOf w.curr_pos = laneOf v.curr_pos := not_not.mp hlane
        split
        · next hfol =>
          simp only [Option.some.injEq]
          constructor
          · intro h
            exact ⟨hne, hlane2, hfol, h.symm⟩
          · rintro ⟨_, _, _, hr⟩
            exact hr.symm
        · next hfol => simp [hfol]

/-- C1: a collision row is produced by one snapshot-pair detection step iff
there are snapshot vehicles `(vid, v)` and `(wid, w)` with `wid ≠ vid` such
that `(wid, w.curr_pos)` is returned by the proximity query around
`v.curr_pos` with radius `v.speed * ttc`, `w`'s resolved lane equals `v`'s,
and `is_following(v.prev, v.curr, w.prev, w.curr)` holds — and the row is then
exactly `(leader = w, follower = v, seconds = t, lane = v's lane)`. -/
theorem C1_detect (laneOf : Pt → String) (snap : List (ℕ × Vehicle)) (ttc t : ℚ)
    (hnd : (snap.map Prod.fst).Nodup) (r : CollisionRec) :
    r ∈ detectStep laneOf snap ttc t ↔
      ∃ vid v wid w, (vid, v) ∈ snap ∧ (wid, w) ∈ snap ∧ wid ≠ vid ∧
        (wid, w.curr_pos) ∈
          (ProximityHelper.mk (snapshotEnd snap)).find v.curr_pos (v.speed * ttc) ∧
        laneOf w.curr_pos = laneOf v.curr_pos ∧
        is_following v.prev_pos v.curr_pos w.prev_pos w.curr_pos = true ∧
        r = ⟨wid, vid, t, laneOf v.curr_pos⟩ := by
  unfold detectStep
  rw [List.mem_flatMap]
  constructor
  · rintro ⟨⟨vid, v⟩, hv, hr⟩
    rw [List.mem_filterMap] at hr
    obtain ⟨⟨wid, q⟩, hq, hc⟩ := hr
    rw [considerCandidate_eq_some] at hc
    obtain ⟨hne, w, hw, hlane, hfol, hreq⟩ := hc
    have hwmem := lookupVehicle_mem snap wid w hw
    have hq2 := (mem_ProximityHelper_find _ _ _ _).mp hq
    obtain ⟨w2, hw2mem, hq3⟩ := (mem_snapshotEnd snap wid q).mp hq2.1
    have hww : w2 = w := nodup_key_unique snap hnd hw2mem hwmem
    rw [hww] at hq3
    rw [hq3] at hq
    exact ⟨vid, v, wid, w, hv, hwmem, hne, hq, hlane, hfol, hreq⟩
  · rintro ⟨vid, v, wid, w, hv, hw, hne, hq, hlane, hfol, hreq⟩
    refine ⟨(vid, v), hv, ?_⟩
    rw [List.mem_filterMap]
    refine ⟨(wid, w.curr_pos), hq, ?_⟩
    rw [considerCandidate_eq_some]
    exact ⟨hne, w, lookupVehicle_eq_some_of_mem snap wid w hnd hw, hlane, hfol, hreq⟩

/-- Witness for C1: in `snapEx` the follower (id 2, speed 5) detects the
leader (id 1) on the shared lane and the step emits exactly the record
`(leader 1, follower 2, seconds 5, lane "L0")`. -/
theorem C1_detect_witness :
    (⟨1, 2, 5, "L0"⟩ : CollisionRec) ∈ detectStep laneConst snapEx 1 5 :=
  (C1_detect laneConst snapEx 1 5 (by simp [snapEx, List.nodup_cons]) _).mpr
    ⟨2, ⟨⟨0, 0⟩, ⟨1, 0⟩, 5, "ca"⟩, 1, ⟨⟨3, 0⟩, ⟨4, 0⟩, 0, "ca"⟩,
     List.mem_cons_of_mem _ (List.mem_cons_self _ _),
     List.mem_cons_self _ _,
     by norm_num,
     by
       rw [mem_ProximityHelper_find]
       refine ⟨?_, ?_, ?_, ?_, ?_, ?_⟩ <;> norm_num [snapshotEnd, snapEx],
     rfl,
     by norm_num [is_following, dist2],
     rfl⟩
